import Mathlib

/-!
Verification of the recipe costing engine of the `techcockbar` repository
(`cocktails/utils/pricing.py`), shallowly embedded in Lean 4.

Python `Decimal` values are modelled exactly as rationals (`ℚ`); the explicit
`quantize` calls of the source are modelled by explicit rounding functions.
`quantize(Decimal("0.01"), rounding=ROUND_HALF_UP)` is `quantizeHalfUp 2`
(round half away from zero, as Python's ROUND_HALF_UP does), and a bare
`quantize(Decimal("0.0001"))` uses the default context rounding
ROUND_HALF_EVEN, modelled by `quantizeHalfEven 4`.

A Python object attribute that may be absent or `None` is modelled as an
`Option ℚ` field (`none` = attribute missing or `None`); `_to_decimal`
substitutes the default `0` in both cases.  The `PricingSettings` row is
modelled as an attribute map `List (String × Option ℚ)` so that the
defensive `hasattr`/`getattr` probing of `_get_ps_value` is represented
faithfully; the whole row may be absent (`Option`), matching
`PricingSettings.objects.first()` returning `None`.
-/

namespace Cockbar

/-- Python Decimal `quantize` to `n` decimal places with `ROUND_HALF_UP` (decimal's
ROUND_HALF_UP: round to nearest, ties away from zero). -/
def quantizeHalfUp (n : ℕ) (x : ℚ) : ℚ :=
  let s : ℚ := (10 : ℚ) ^ n
  if 0 ≤ x then ((⌊x * s + 1 / 2⌋ : ℤ) : ℚ) / s
  else -(((⌊(-x) * s + 1 / 2⌋ : ℤ) : ℚ) / s)

/-- Python Decimal `quantize` to `n` decimal places with the default context rounding
`ROUND_HALF_EVEN` (round to nearest, ties to the even neighbour). -/
def quantizeHalfEven (n : ℕ) (x : ℚ) : ℚ :=
  let s : ℚ := (10 : ℚ) ^ n
  let y := x * s
  let f : ℤ := ⌊y⌋
  let k : ℤ :=
    if y < (f : ℚ) + 1 / 2 then f
    else if (f : ℚ) + 1 / 2 < y then f + 1
    else if f % 2 = 0 then f else f + 1
  (k : ℚ) / s

/-- Python `str.lower()` restricted to what the engine needs: lower-case every
character.  (Defined through `List.map` so that it evaluates by `decide`.) -/
def toLowerStr (s : String) : String := String.mk (s.data.map Char.toLower)

/-- Association-list lookup, mirroring Python `dict.get` / `getattr`. -/
def lookupStr {α : Type} (key : String) : List (String × α) → Option α
  | [] => none
  | (k, v) :: rest => if key = k then some v else lookupStr key rest

/-- The dict `_UNIT_TO_OZ` from `cocktails/utils/pricing.py`: admin `unit_input`
to fluid-ounce conversion factors. -/
def UNIT_TO_OZ : List (String × ℚ) :=
  [("oz", 1), ("dash", 3 / 100), ("leaf", 0), ("wedge", 0)]

/-- Embeds `_to_decimal(val, default="0")`: `None` (or a missing attribute) becomes
the default `0`; a numeric value passes through exactly.  (The engine may
assume validated numeric inputs at its boundary, so the `except` branch for
non-numeric strings is not reachable in this model.) -/
def to_decimal (val : Option ℚ) : ℚ := val.getD 0

/-- Embeds `_amount_to_oz(amount_input, unit_input)`: lower-case the unit, look up
its factor with default `0`, multiply and quantize to 4 decimal places. -/
def amount_to_oz (amount_input : Option ℚ) (unit_input : Option String) : ℚ :=
  let unit := toLowerStr (unit_input.getD "")
  let mult := (lookupStr unit UNIT_TO_OZ).getD 0
  quantizeHalfEven 4 (to_decimal amount_input * mult)

/-- The `Ingredient` record: the two fields the engine reads, each possibly
absent/None. -/
structure Ingredient where
  abv_percent : Option ℚ
  cost_per_oz : Option ℚ
deriving DecidableEq

/-- The `CocktailIngredient` (recipe line) record: the fields the engine reads. -/
structure CocktailIngredient where
  amount_oz : Option ℚ
  amount_input : Option ℚ
  unit_input : Option String
  ingredient : Ingredient
deriving DecidableEq

/-- Ounce volume of one recipe line as `compute_totals` determines it:
prefer the cached `amount_oz` if nonzero, otherwise convert the raw
`(amount_input, unit_input)`. -/
def lineOz (r : CocktailIngredient) : ℚ :=
  let oz := to_decimal r.amount_oz
  if oz = 0 then amount_to_oz r.amount_input r.unit_input else oz

/-- Loop body of `compute_totals`: accumulate `(total_oz, pure_alcohol_oz,
ing_cost)`. -/
def totalsStep (acc : ℚ × ℚ × ℚ) (r : CocktailIngredient) : ℚ × ℚ × ℚ :=
  let oz := lineOz r
  let abv := to_decimal r.ingredient.abv_percent
  let cost_per_oz := to_decimal r.ingredient.cost_per_oz
  (acc.1 + oz, acc.2.1 + oz * abv / 100, acc.2.2 + oz * cost_per_oz)

/-- Embeds `compute_totals(cocktail)`, with the cocktail represented by its list of
recipe lines: returns `(total_volume_oz, abv_percent, ingredients_cost)`. -/
def compute_totals (rows : List CocktailIngredient) : ℚ × ℚ × ℚ :=
  let st := rows.foldl totalsStep (0, 0, 0)
  let abv_percent := if st.1 ≠ 0 then st.2.1 / st.1 * 100 else 0
  (st.1, quantizeHalfUp 2 abv_percent, quantizeHalfUp 2 st.2.2)

/-- A `PricingSettings` row as an attribute map: attribute name ↦ stored
value, where the stored value itself may be `None`. -/
def PSObj : Type := List (String × Option ℚ)

/-- Embeds `_get_ps_value(ps, *names, default="0")`: probe the attribute names in
order; the first present one is read through `_to_decimal`; if none is
present (in particular when `ps` is `None`), return the default `0`. -/
def get_ps_value (ps : Option PSObj) (names : List String) : ℚ :=
  match ps with
  | none => 0
  | some obj =>
    match names with
    | [] => 0
    | n :: rest =>
      match lookupStr n obj with
      | some v => to_decimal v
      | none => get_ps_value (some obj) rest

/-- Embeds `compute_price(cocktail)`:
`price = (ingredients_cost + labor) * (1 + (markup + overhead)/100)`,
quantized half-up to 2 decimals.  The pricing-settings row (possibly absent)
is passed explicitly, mirroring `PricingSettings.objects.first()`. -/
def compute_price (rows : List CocktailIngredient) (ps : Option PSObj) : ℚ :=
  let ingredients_cost := (compute_totals rows).2.2
  let labor := get_ps_value ps ["labor_per_cocktail", "labor", "labor_cost"]
  let markup := get_ps_value ps ["markup_percent", "markup"]
  let overhead := get_ps_value ps ["overhead_percent", "overhead"]
  let subtotal := ingredients_cost + labor
  let factor := 1 + (markup + overhead) / 100
  quantizeHalfUp 2 (subtotal * factor)

/-- Sum of the (unrounded) per-line ounce volumes: what the loop of
`compute_totals` accumulates into `total_oz`. -/
def totalOz (rows : List CocktailIngredient) : ℚ :=
  (rows.map lineOz).sum

/-- Sum of the (unrounded) per-line pure-alcohol contributions
`oz * abv / 100`: what the loop accumulates into `pure_alcohol_oz`. -/
def pureAlcoholOz (rows : List CocktailIngredient) : ℚ :=
  (rows.map (fun r => lineOz r * to_decimal r.ingredient.abv_percent / 100)).sum

/-- Sum of the (unrounded) per-line cost contributions `oz * cost_per_oz`:
what the loop accumulates into `ing_cost`. -/
def ingCostRaw (rows : List CocktailIngredient) : ℚ :=
  (rows.map (fun r => lineOz r * to_decimal r.ingredient.cost_per_oz)).sum

/-- The unit names of the table are already lower-case: normalising "oz"
is the identity. -/
lemma toLowerStr_oz : toLowerStr "oz" = "oz" := by decide

lemma toLowerStr_dash : toLowerStr "dash" = "dash" := by decide

lemma toLowerStr_leaf : toLowerStr "leaf" = "leaf" := by decide

lemma toLowerStr_tsp : toLowerStr "tsp" = "tsp" := by decide

/-- Every quantized value is an integer number of `10^-n` units. -/
lemma quantizeHalfUp_exists_int (n : ℕ) (x : ℚ) :
    ∃ k : ℤ, quantizeHalfUp n x = (k : ℚ) / 10 ^ n := by
  unfold quantizeHalfUp
  split
  · exact ⟨⌊x * 10 ^ n + 1 / 2⌋, rfl⟩
  · exact ⟨-⌊-x * 10 ^ n + 1 / 2⌋, by push_cast; ring⟩

/-- Grid points are fixed by `quantizeHalfUp`. -/
lemma quantizeHalfUp_intCast_div (n : ℕ) (k : ℤ) :
    quantizeHalfUp n ((k : ℚ) / 10 ^ n) = (k : ℚ) / 10 ^ n := by
  have hs : (0 : ℚ) < 10 ^ n := by positivity
  have hxs : (k : ℚ) / 10 ^ n * 10 ^ n = (k : ℚ) := by field_simp
  have hfl : ∀ m : ℤ, ⌊(m : ℚ) + 1 / 2⌋ = m := by
    intro m
    rw [Int.floor_eq_iff]
    constructor
    · linarith
    · linarith
  simp only [quantizeHalfUp]
  split
  · rw [hxs, hfl]
  · rw [neg_mul, hxs]
    have h2 := hfl (-k)
    push_cast at h2
    rw [h2]
    push_cast
    ring

/-- Quantizing twice is the same as quantizing once. -/
lemma quantizeHalfUp_idem (n : ℕ) (x : ℚ) :
    quantizeHalfUp n (quantizeHalfUp n x) = quantizeHalfUp n x := by
  obtain ⟨k, hk⟩ := quantizeHalfUp_exists_int n x
  rw [hk, quantizeHalfUp_intCast_div]

lemma quantizeHalfUp_zero (n : ℕ) : quantizeHalfUp n 0 = 0 := by
  have h := quantizeHalfUp_intCast_div n 0
  simpa using h

lemma quantizeHalfUp_nonneg (n : ℕ) {x : ℚ} (h : 0 ≤ x) :
    0 ≤ quantizeHalfUp n x := by
  have hs : (0 : ℚ) < 10 ^ n := by positivity
  have hfl : (0 : ℤ) ≤ ⌊x * 10 ^ n + 1 / 2⌋ :=
    Int.floor_nonneg.mpr (by positivity)
  simp only [quantizeHalfUp]
  rw [if_pos h]
  exact div_nonneg (by exact_mod_cast hfl) (le_of_lt hs)

lemma quantizeHalfUp_two_le_hundred {x : ℚ} (hx : 0 ≤ x) (h : x ≤ 100) :
    quantizeHalfUp 2 x ≤ 100 := by
  have hfl : ⌊x * 10 ^ 2 + 1 / 2⌋ ≤ 10000 := by
    have h1 : x * 10 ^ 2 + 1 / 2 ≤ 20001 / 2 := by norm_num; linarith
    calc ⌊x * 10 ^ 2 + 1 / 2⌋ ≤ ⌊(20001 / 2 : ℚ)⌋ := Int.floor_mono h1
      _ = 10000 := by norm_num
  simp only [quantizeHalfUp]
  rw [if_pos hx]
  rw [div_le_iff₀ (by positivity)]
  norm_num
  exact_mod_cast hfl

/-- Grid points are fixed by `quantizeHalfEven`. -/
lemma quantizeHalfEven_intCast_div (n : ℕ) (k : ℤ) :
    quantizeHalfEven n ((k : ℚ) / 10 ^ n) = (k : ℚ) / 10 ^ n := by
  have hs : (0 : ℚ) < 10 ^ n := by positivity
  have hxs : (k : ℚ) / 10 ^ n * 10 ^ n = (k : ℚ) := by field_simp
  simp only [quantizeHalfEven]
  rw [hxs, Int.floor_intCast, if_pos (show (k : ℚ) < (k : ℚ) + 1 / 2 by linarith)]

lemma quantizeHalfEven_zero (n : ℕ) : quantizeHalfEven n 0 = 0 := by
  have h := quantizeHalfEven_intCast_div n 0
  simpa using h

lemma quantizeHalfEven_nonneg (n : ℕ) {x : ℚ} (h : 0 ≤ x) :
    0 ≤ quantizeHalfEven n x := by
  have hs : (0 : ℚ) < 10 ^ n := by positivity
  have hfl : (0 : ℤ) ≤ ⌊x * 10 ^ n⌋ := Int.floor_nonneg.mpr (by positivity)
  have hfl1 : (0 : ℤ) ≤ ⌊x * 10 ^ n⌋ + 1 := by linarith
  simp only [quantizeHalfEven]
  split
  · exact div_nonneg (by exact_mod_cast hfl) (le_of_lt hs)
  split
  · exact div_nonneg (by exact_mod_cast hfl1) (le_of_lt hs)
  split
  · exact div_nonneg (by exact_mod_cast hfl) (le_of_lt hs)
  · exact div_nonneg (by exact_mod_cast hfl1) (le_of_lt hs)

/-- The loop of `compute_totals` computes exactly the three unrounded sums,
shifted by the initial accumulator. -/
lemma foldl_totalsStep (rows : List CocktailIngredient) (a b c : ℚ) :
    rows.foldl totalsStep (a, b, c)
      = (a + totalOz rows, b + pureAlcoholOz rows, c + ingCostRaw rows) := by
  induction rows generalizing a b c with
  | nil => simp [totalOz, pureAlcoholOz, ingCostRaw]
  | cons r rest ih =>
    simp only [List.foldl_cons, totalsStep, ih, totalOz, pureAlcoholOz,
      ingCostRaw, List.map_cons, List.sum_cons]
    rw [Prod.ext_iff, Prod.ext_iff]
    refine ⟨by ring, by ring, by ring⟩

/-- Closed form of `compute_totals`: the three unrounded sums, with a single
final half-up 2-decimal quantization on the percentage and cost outputs. -/
lemma compute_totals_eq (rows : List CocktailIngredient) :
    compute_totals rows
      = (totalOz rows,
         quantizeHalfUp 2
           (if totalOz rows ≠ 0 then pureAlcoholOz rows / totalOz rows * 100
            else 0),
         quantizeHalfUp 2 (ingCostRaw rows)) := by
  unfold compute_totals
  rw [foldl_totalsStep rows 0 0 0]
  norm_num

/-- Prepending an attribute whose name is never probed does not change any
probed pricing-settings value. -/
lemma get_ps_value_cons_of_not_mem (obj : PSObj) (a : String) (v : Option ℚ)
    (names : List String) (h : a ∉ names) :
    get_ps_value (some ((a, v) :: obj)) names = get_ps_value (some obj) names := by
  induction names with
  | nil => rfl
  | cons n rest ih =>
    have hna : ¬ n = a := by
      intro he
      subst he
      exact h (List.mem_cons_self n rest)
    have hrest : a ∉ rest := fun hr => h (List.mem_cons_of_mem _ hr)
    cases hlk : lookupStr n obj with
    | some w => simp [get_ps_value, lookupStr, if_neg hna, hlk]
    | none => simp [get_ps_value, lookupStr, if_neg hna, hlk, ih hrest]

/-- Modelled from the spec (not present in the source): snapping a price to
the nearest multiple of a rounding increment, ties rounded half up to the
next increment.  Used only to compare the spec's claimed behaviour with the
behaviour of `compute_price`. -/
def snapToIncrement (inc x : ℚ) : ℚ :=
  ((⌊x / inc + 1 / 2⌋ : ℤ) : ℚ) * inc

/-- C1: for every cocktail and every pricing configuration whose probed
labor, markup and overhead values are `L`, `m` and `o`, `compute_price`
returns `(ingredient_cost + L) * (1 + (m + o) / 100)` rounded half-up to
2 decimal places; in particular with `ingredient_cost = 16.50`, `L = 2`,
`m = 20`, `o = 10` it returns `24.05`. -/
theorem c1_price_formula (rows : List CocktailIngredient) (ps : Option PSObj)
    (L m o : ℚ)
    (hL : get_ps_value ps ["labor_per_cocktail", "labor", "labor_cost"] = L)
    (hm : get_ps_value ps ["markup_percent", "markup"] = m)
    (ho : get_ps_value ps ["overhead_percent", "overhead"] = o) :
    compute_price rows ps
      = quantizeHalfUp 2 (((compute_totals rows).2.2 + L) * (1 + (m + o) / 100))
    ∧ ((compute_totals rows).2.2 = 33 / 2 → L = 2 → m = 20 → o = 10 →
        compute_price rows ps = 481 / 20) := by
  have h1 : compute_price rows ps
      = quantizeHalfUp 2 (((compute_totals rows).2.2 + L) * (1 + (m + o) / 100)) := by
    simp only [compute_price, hL, hm, ho]
  refine ⟨h1, ?_⟩
  intro hic hL2 hm2 ho2
  rw [h1, hic, hL2, hm2, ho2]
  norm_num [quantizeHalfUp]

/-- C1 witness: a one-line recipe costing `16.50` and a spec-shaped pricing
configuration (`labor_cost = 2`, `markup_percent = 20`,
`overhead_percent = 10`, no rounding increment) price at `24.05`. -/
theorem c1_price_formula_witness :
    get_ps_value
        (some [("labor_cost", some 2), ("markup_percent", some 20),
               ("overhead_percent", some 10)])
        ["labor_per_cocktail", "labor", "labor_cost"] = 2
    ∧ compute_price [⟨some 33, none, none, ⟨none, some (1 / 2)⟩⟩]
        (some [("labor_cost", some 2), ("markup_percent", some 20),
               ("overhead_percent", some 10)]) = 481 / 20 := by
  constructor
  · norm_num +decide [get_ps_value, lookupStr, to_decimal]
  · refine (c1_price_formula [⟨some 33, none, none, ⟨none, some (1 / 2)⟩⟩]
      (some [("labor_cost", some 2), ("markup_percent", some 20),
             ("overhead_percent", some 10)]) 2 20 10 ?_ ?_ ?_).2 ?_ rfl rfl rfl
    · norm_num +decide [get_ps_value, lookupStr, to_decimal]
    · norm_num +decide [get_ps_value, lookupStr, to_decimal]
    · norm_num +decide [get_ps_value, lookupStr, to_decimal]
    · norm_num +decide [compute_totals, totalsStep, lineOz, to_decimal,
        quantizeHalfUp]

/-- C2 counterexample: with the pricing row carrying
`price_round_increment = 0.25` and the scenario configuration, the raw price
is `24.05`; snapping to the nearest `0.25` (ties half up) would give
`24.00`, but `compute_price` returns `24.05`, which is not the snapped
value — the increment is never applied. -/
theorem c2_counterexample :
    compute_price [⟨some 33, none, none, ⟨none, some (1 / 2)⟩⟩]
        (some [("labor_cost", some 2), ("markup_percent", some 20),
               ("overhead_percent", some 10),
               ("price_round_increment", some (1 / 4))])
      = 481 / 20
    ∧ snapToIncrement (1 / 4) (481 / 20) = 24
    ∧ (481 / 20 : ℚ) ≠ 24 := by
  refine ⟨?_, by norm_num [snapToIncrement], by norm_num⟩
  norm_num +decide [compute_price, compute_totals, totalsStep, lineOz,
    get_ps_value, lookupStr, to_decimal, quantizeHalfUp]

/-- C2 amended: `compute_price` ignores `price_round_increment` entirely —
adding the attribute (with any value) to a pricing row leaves the returned
price unchanged, so no snapping to the increment ever happens. -/
theorem c2_amended_increment_ignored (rows : List CocktailIngredient)
    (obj : PSObj) (v : Option ℚ) :
    compute_price rows (some (("price_round_increment", v) :: obj))
      = compute_price rows (some obj) := by
  simp only [compute_price]
  rw [get_ps_value_cons_of_not_mem obj _ v _ (by decide),
      get_ps_value_cons_of_not_mem obj _ v _ (by decide),
      get_ps_value_cons_of_not_mem obj _ v _ (by decide)]

/-- C3: for every amount and every unit string that is not in the unit
table after case-insensitive lookup, the converted volume is `0`. -/
theorem c3_unknown_unit_zero (x : Option ℚ) (u : String)
    (h : lookupStr (toLowerStr u) UNIT_TO_OZ = none) :
    amount_to_oz x (some u) = 0 := by
  simp only [amount_to_oz, Option.getD_some]
  rw [h]
  simp only [Option.getD_none, mul_zero]
  exact quantizeHalfEven_zero 4

/-- C3 witness: "tsp" is not in the unit table, and 7 tsp converts to 0 oz. -/
theorem c3_unknown_unit_zero_witness :
    lookupStr (toLowerStr "tsp") UNIT_TO_OZ = none
    ∧ amount_to_oz (some 7) (some "tsp") = 0 :=
  ⟨by decide, c3_unknown_unit_zero (some 7) "tsp" (by decide)⟩

/-- C4 counterexample: on the scenario recipe (15 oz at 28% and $0.50/oz,
15 oz at 17% and $0.60/oz, 5 dash at 0% and $0), `compute_totals` returns
`(30.15, 22.39, 16.50)`, not the claimed `(30, 22.5, 16.50)`: a dash
converts at 0.03 oz each, so the garnish line contributes 0.15 oz. -/
theorem c4_counterexample :
    compute_totals
        [⟨some 0, some 15, some "oz", ⟨some 28, some (1 / 2)⟩⟩,
         ⟨some 0, some 15, some "oz", ⟨some 17, some (3 / 5)⟩⟩,
         ⟨some 0, some 5, some "dash", ⟨some 0, some 0⟩⟩]
      ≠ ((30 : ℚ), (45 / 2 : ℚ), (33 / 2 : ℚ)) := by
  have h : compute_totals
        [⟨some 0, some 15, some "oz", ⟨some 28, some (1 / 2)⟩⟩,
         ⟨some 0, some 15, some "oz", ⟨some 17, some (3 / 5)⟩⟩,
         ⟨some 0, some 5, some "dash", ⟨some 0, some 0⟩⟩]
      = (603 / 20, 2239 / 100, 33 / 2) := by
    norm_num +decide [compute_totals, totalsStep, lineOz, amount_to_oz,
      toLowerStr_oz, toLowerStr_dash, lookupStr, UNIT_TO_OZ, to_decimal,
      quantizeHalfEven, quantizeHalfUp]
  rw [h]
  norm_num [Prod.ext_iff]

/-- C4 amended: on the scenario recipe, `compute_totals` returns
`total_volume_oz = 30.15`, `abv_percent = 22.39` and
`ingredient_cost = 16.50` (each dash counts 0.03 oz, so 5 dashes add
0.15 oz of volume and dilute the ABV to 6.75/30.15 = 22.39%). -/
theorem c4_amended_scenario_totals :
    compute_totals
        [⟨some 0, some 15, some "oz", ⟨some 28, some (1 / 2)⟩⟩,
         ⟨some 0, some 15, some "oz", ⟨some 17, some (3 / 5)⟩⟩,
         ⟨some 0, some 5, some "dash", ⟨some 0, some 0⟩⟩]
      = (603 / 20, 2239 / 100, 33 / 2) := by
  norm_num +decide [compute_totals, totalsStep, lineOz, amount_to_oz,
    toLowerStr_oz, toLowerStr_dash, lookupStr, UNIT_TO_OZ, to_decimal,
    quantizeHalfEven, quantizeHalfUp]

/-- C5: a recipe with zero lines yields `(0, 0, 0)`, and more generally
whenever the summed total volume is `0` the ABV division is short-circuited
and the returned `abv_percent` is `0` instead of an error. -/
theorem c5_zero_volume_zero_abv :
    compute_totals [] = (0, 0, 0)
    ∧ ∀ rows : List CocktailIngredient,
        (compute_totals rows).1 = 0 → (compute_totals rows).2.1 = 0 := by
  constructor
  · rw [compute_totals_eq]
    simp [totalOz, pureAlcoholOz, ingCostRaw, quantizeHalfUp_zero]
  · intro rows h
    rw [compute_totals_eq] at h ⊢
    simp only at h ⊢
    rw [if_neg (not_not_intro h)]
    exact quantizeHalfUp_zero 2

/-- C5 witness: an all-garnish recipe (5 leaves) sums to volume 0 and gets
ABV 0 from the short-circuit. -/
theorem c5_zero_volume_zero_abv_witness :
    (compute_totals [⟨some 0, some 5, some "leaf", ⟨some 0, some 0⟩⟩]).1 = 0
    ∧ (compute_totals [⟨some 0, some 5, some "leaf", ⟨some 0, some 0⟩⟩]).2.1
        = 0 := by
  have h1 : (compute_totals
      [⟨some 0, some 5, some "leaf", ⟨some 0, some 0⟩⟩]).1 = 0 := by
    norm_num +decide [compute_totals, totalsStep, lineOz, amount_to_oz,
      toLowerStr_leaf, lookupStr, UNIT_TO_OZ, to_decimal, quantizeHalfEven]
  exact ⟨h1, c5_zero_volume_zero_abv.2 _ h1⟩

/-- C6: with no pricing-settings row at all, every probed value defaults to
`0` and `compute_price` still returns a price, equal to the (already
rounded) ingredient cost. -/
theorem c6_missing_settings_defaults (rows : List CocktailIngredient) :
    compute_price rows none = (compute_totals rows).2.2 := by
  have h2 : (compute_totals rows).2.2 = quantizeHalfUp 2 (ingCostRaw rows) := by
    rw [compute_totals_eq]
  simp only [compute_price, get_ps_value]
  have h3 : ((compute_totals rows).2.2 + 0) * (1 + (0 + 0) / 100)
      = (compute_totals rows).2.2 := by ring
  rw [h3, h2, quantizeHalfUp_idem]

/-- C7: the half-up 2-decimal rounding of the monetary and percentage
outputs is applied exactly once, at the end: `abv_percent` and
`ingredient_cost` are the single quantization of the unrounded sums of
per-line contributions, `price` is the single quantization of the raw
markup product, and each of the three outputs is an exact integer number
of hundredths. -/
theorem c7_round_half_up_once (rows : List CocktailIngredient)
    (ps : Option PSObj) :
    (compute_totals rows).2.1
        = quantizeHalfUp 2
            (if totalOz rows ≠ 0 then pureAlcoholOz rows / totalOz rows * 100
             else 0)
    ∧ (compute_totals rows).2.2 = quantizeHalfUp 2 (ingCostRaw rows)
    ∧ compute_price rows ps
        = quantizeHalfUp 2
            (((compute_totals rows).2.2
                + get_ps_value ps ["labor_per_cocktail", "labor", "labor_cost"])
              * (1 + (get_ps_value ps ["markup_percent", "markup"]
                      + get_ps_value ps ["overhead_percent", "overhead"]) / 100))
    ∧ (∃ a : ℤ, (compute_totals rows).2.1 = (a : ℚ) / 100)
    ∧ (∃ b : ℤ, (compute_totals rows).2.2 = (b : ℚ) / 100)
    ∧ (∃ c : ℤ, compute_price rows ps = (c : ℚ) / 100) := by
  refine ⟨by rw [compute_totals_eq], by rw [compute_totals_eq], rfl, ?_, ?_, ?_⟩
  · obtain ⟨a, ha⟩ := quantizeHalfUp_exists_int 2
      (if totalOz rows ≠ 0 then pureAlcoholOz rows / totalOz rows * 100 else 0)
    refine ⟨a, ?_⟩
    rw [compute_totals_eq]
    simp only
    rw [ha]
    norm_num
  · obtain ⟨b, hb⟩ := quantizeHalfUp_exists_int 2 (ingCostRaw rows)
    refine ⟨b, ?_⟩
    rw [compute_totals_eq]
    simp only
    rw [hb]
    norm_num
  · obtain ⟨c, hc⟩ := quantizeHalfUp_exists_int 2
      (((compute_totals rows).2.2
          + get_ps_value ps ["labor_per_cocktail", "labor", "labor_cost"])
        * (1 + (get_ps_value ps ["markup_percent", "markup"]
                + get_ps_value ps ["overhead_percent", "overhead"]) / 100))
    refine ⟨c, ?_⟩
    rw [show compute_price rows ps
        = quantizeHalfUp 2
            (((compute_totals rows).2.2
                + get_ps_value ps ["labor_per_cocktail", "labor", "labor_cost"])
              * (1 + (get_ps_value ps ["markup_percent", "markup"]
                      + get_ps_value ps ["overhead_percent", "overhead"]) / 100))
      from rfl]
    rw [hc]
    norm_num

/-- C8 counterexample: the "oz" conversion is not the identity for every
amount: `0.00005` oz is quantized (half-even, 4 decimal places) to `0`. -/
theorem c8_counterexample :
    amount_to_oz (some (1 / 20000)) (some "oz") = 0 ∧ (1 / 20000 : ℚ) ≠ 0 := by
  constructor
  · norm_num +decide [amount_to_oz, toLowerStr_oz, lookupStr, UNIT_TO_OZ,
      to_decimal, quantizeHalfEven]
  · norm_num

/-- C8 amended: `convert_to_ounces(x, "oz")` returns `x` quantized
half-even to 4 decimal places; it is the identity exactly on amounts that
are whole multiples of `0.0001` — which covers every storable
`amount_input`, a 4-decimal-place field. -/
theorem c8_amended_oz_identity_on_grid :
    (∀ x : ℚ, amount_to_oz (some x) (some "oz") = quantizeHalfEven 4 x)
    ∧ ∀ k : ℤ, amount_to_oz (some ((k : ℚ) / 10 ^ 4)) (some "oz")
        = (k : ℚ) / 10 ^ 4 := by
  have hbase : ∀ x : ℚ, amount_to_oz (some x) (some "oz")
      = quantizeHalfEven 4 x := by
    intro x
    simp only [amount_to_oz, Option.getD_some, toLowerStr_oz]
    have hlk : lookupStr "oz" UNIT_TO_OZ = some 1 := by
      simp +decide [lookupStr, UNIT_TO_OZ]
    rw [hlk]
    simp [to_decimal]
  exact ⟨hbase, fun k => by rw [hbase, quantizeHalfEven_intCast_div]⟩

/-- Every conversion factor in the unit table is nonnegative, and so is the
fallback `0` for unknown units. -/
lemma unit_factor_nonneg (u : String) :
    0 ≤ (lookupStr u UNIT_TO_OZ).getD 0 := by
  simp only [UNIT_TO_OZ, lookupStr]
  split_ifs <;> norm_num

/-- A line with nonnegative cached `amount_oz` and nonnegative raw
`amount_input` contributes a nonnegative ounce volume. -/
lemma lineOz_nonneg (r : CocktailIngredient)
    (h1 : 0 ≤ to_decimal r.amount_oz) (h2 : 0 ≤ to_decimal r.amount_input) :
    0 ≤ lineOz r := by
  simp only [lineOz]
  split
  · simp only [amount_to_oz]
    exact quantizeHalfEven_nonneg 4 (mul_nonneg h2 (unit_factor_nonneg _))
  · exact h1

lemma totalOz_nonneg :
    ∀ rows : List CocktailIngredient,
      (∀ r ∈ rows, 0 ≤ lineOz r) → 0 ≤ totalOz rows
  | [], _ => by simp [totalOz]
  | r :: rest, h => by
    have h1 := h r (List.mem_cons_self r rest)
    have h2 := totalOz_nonneg rest (fun x hx => h x (List.mem_cons_of_mem _ hx))
    simp only [totalOz, List.map_cons, List.sum_cons] at *
    linarith

lemma pureAlcoholOz_nonneg :
    ∀ rows : List CocktailIngredient,
      (∀ r ∈ rows, 0 ≤ lineOz r) →
      (∀ r ∈ rows, 0 ≤ to_decimal r.ingredient.abv_percent) →
      0 ≤ pureAlcoholOz rows
  | [], _, _ => by simp [pureAlcoholOz]
  | r :: rest, hoz, habv => by
    have h1 := hoz r (List.mem_cons_self r rest)
    have h2 := habv r (List.mem_cons_self r rest)
    have h3 := pureAlcoholOz_nonneg rest
      (fun x hx => hoz x (List.mem_cons_of_mem _ hx))
      (fun x hx => habv x (List.mem_cons_of_mem _ hx))
    simp only [pureAlcoholOz, List.map_cons, List.sum_cons] at *
    have : 0 ≤ lineOz r * to_decimal r.ingredient.abv_percent / 100 := by
      positivity
    linarith

lemma pureAlcoholOz_le_totalOz :
    ∀ rows : List CocktailIngredient,
      (∀ r ∈ rows, 0 ≤ lineOz r) →
      (∀ r ∈ rows, to_decimal r.ingredient.abv_percent ≤ 100) →
      pureAlcoholOz rows ≤ totalOz rows
  | [], _, _ => by simp [pureAlcoholOz, totalOz]
  | r :: rest, hoz, habv => by
    have h1 := hoz r (List.mem_cons_self r rest)
    have h2 := habv r (List.mem_cons_self r rest)
    have h3 := pureAlcoholOz_le_totalOz rest
      (fun x hx => hoz x (List.mem_cons_of_mem _ hx))
      (fun x hx => habv x (List.mem_cons_of_mem _ hx))
    simp only [pureAlcoholOz, totalOz, List.map_cons, List.sum_cons] at *
    nlinarith

/-- C9 counterexample: ingredient ABV bounds alone do not bound the output:
with a line of 10 cached oz at ABV 100 and a line of cached −5 oz at ABV 0
(both ingredient ABVs inside `[0, 100]`), `compute_totals` reports an
`abv_percent` of 200. -/
theorem c9_counterexample :
    ((0 : ℚ) ≤ to_decimal (some 100) ∧ to_decimal (some 100) ≤ 100)
    ∧ ((0 : ℚ) ≤ to_decimal (some 0) ∧ to_decimal (some 0) ≤ 100)
    ∧ (compute_totals
        [⟨some 10, none, none, ⟨some 100, some 0⟩⟩,
         ⟨some (-5), none, none, ⟨some 0, some 0⟩⟩]).2.1 = 200
    ∧ ¬ ((compute_totals
        [⟨some 10, none, none, ⟨some 100, some 0⟩⟩,
         ⟨some (-5), none, none, ⟨some 0, some 0⟩⟩]).2.1 ≤ 100) := by
  refine ⟨⟨by norm_num [to_decimal], by norm_num [to_decimal]⟩,
          ⟨by norm_num [to_decimal], by norm_num [to_decimal]⟩, ?_, ?_⟩ <;>
    norm_num [compute_totals, totalsStep, lineOz, to_decimal, quantizeHalfUp]

/-- C9 amended: if every ingredient ABV lies in `[0, 100]` and every line
has nonnegative cached `amount_oz` and nonnegative `amount_input`, then the
`abv_percent` returned by `compute_totals` lies in `[0, 100]`. -/
theorem c9_amended_abv_bounded (rows : List CocktailIngredient)
    (habv : ∀ r ∈ rows, 0 ≤ to_decimal r.ingredient.abv_percent
            ∧ to_decimal r.ingredient.abv_percent ≤ 100)
    (hamt : ∀ r ∈ rows, 0 ≤ to_decimal r.amount_oz
            ∧ 0 ≤ to_decimal r.amount_input) :
    0 ≤ (compute_totals rows).2.1 ∧ (compute_totals rows).2.1 ≤ 100 := by
  have hoz : ∀ r ∈ rows, 0 ≤ lineOz r :=
    fun r hr => lineOz_nonneg r (hamt r hr).1 (hamt r hr).2
  have htot : 0 ≤ totalOz rows := totalOz_nonneg rows hoz
  have hpure0 : 0 ≤ pureAlcoholOz rows :=
    pureAlcoholOz_nonneg rows hoz (fun r hr => (habv r hr).1)
  have hpure1 : pureAlcoholOz rows ≤ totalOz rows :=
    pureAlcoholOz_le_totalOz rows hoz (fun r hr => (habv r hr).2)
  rw [compute_totals_eq]
  simp only
  by_cases h : totalOz rows = 0
  · rw [if_neg (not_not_intro h), quantizeHalfUp_zero]
    norm_num
  · rw [if_pos h]
    have hlt : 0 < totalOz rows := lt_of_le_of_ne htot (Ne.symm h)
    have hraw0 : 0 ≤ pureAlcoholOz rows / totalOz rows * 100 := by positivity
    have hraw1 : pureAlcoholOz rows / totalOz rows * 100 ≤ 100 := by
      have hd : pureAlcoholOz rows / totalOz rows ≤ 1 :=
        (div_le_one hlt).mpr hpure1
      linarith
    exact ⟨quantizeHalfUp_nonneg 2 hraw0,
           quantizeHalfUp_two_le_hundred hraw0 hraw1⟩

/-- C9 witness: a single 10-oz line of a 40%-ABV ingredient has its
computed ABV inside `[0, 100]`. -/
theorem c9_amended_abv_bounded_witness :
    0 ≤ (compute_totals [⟨some 10, none, none, ⟨some 40, some 0⟩⟩]).2.1
    ∧ (compute_totals [⟨some 10, none, none, ⟨some 40, some 0⟩⟩]).2.1
        ≤ 100 :=
  c9_amended_abv_bounded [⟨some 10, none, none, ⟨some 40, some 0⟩⟩]
    (by norm_num [to_decimal]) (by norm_num [to_decimal])

/-- C10: `compute_totals` prefers the cached `amount_oz` exactly when it is
nonzero: a line with nonzero cache contributes the cached value and its raw
`(amount_input, unit_input)` is ignored (replacing them changes nothing),
while a line with cache `0` or absent cache has its volume recomputed by
unit conversion. -/
theorem c10_cache_over_raw (c : ℚ) (h : c ≠ 0) (a a' : Option ℚ)
    (u u' : Option String) (ing : Ingredient)
    (rows : List CocktailIngredient) :
    lineOz ⟨some c, a, u, ing⟩ = c
    ∧ compute_totals (⟨some c, a, u, ing⟩ :: rows)
        = compute_totals (⟨some c, a', u', ing⟩ :: rows)
    ∧ lineOz ⟨some 0, a, u, ing⟩ = amount_to_oz a u
    ∧ lineOz ⟨none, a, u, ing⟩ = amount_to_oz a u := by
  have h1 : lineOz ⟨some c, a, u, ing⟩ = c := by
    simp only [lineOz, to_decimal, Option.getD_some]
    rw [if_neg h]
  have h1' : lineOz ⟨some c, a', u', ing⟩ = c := by
    simp only [lineOz, to_decimal, Option.getD_some]
    rw [if_neg h]
  refine ⟨h1, ?_, ?_, ?_⟩
  · simp only [compute_totals_eq, totalOz, pureAlcoholOz, ingCostRaw,
      List.map_cons, List.sum_cons, h1, h1']
  · simp [lineOz, to_decimal]
  · simp [lineOz, to_decimal]

/-- C10 witness: a line cached at 2 oz keeps contributing 2 oz even when
its raw input says 3 dashes; with cache 0 or no cache the 15-oz raw input
is converted instead. -/
theorem c10_cache_over_raw_witness :
    lineOz ⟨some 2, some 15, some "oz", ⟨some 40, some 1⟩⟩ = 2
    ∧ compute_totals [⟨some 2, some 15, some "oz", ⟨some 40, some 1⟩⟩]
        = compute_totals [⟨some 2, some 3, some "dash", ⟨some 40, some 1⟩⟩]
    ∧ lineOz ⟨some 0, some 15, some "oz", ⟨some 40, some 1⟩⟩
        = amount_to_oz (some 15) (some "oz")
    ∧ lineOz ⟨none, some 15, some "oz", ⟨some 40, some 1⟩⟩
        = amount_to_oz (some 15) (some "oz") :=
  c10_cache_over_raw 2 (by norm_num) (some 15) (some 3) (some "oz")
    (some "dash") ⟨some 40, some 1⟩ []

end Cockbar
